import Mathlib

/-!
Verification of the stage4 extreme-temperature wave detection program.

The Lean definitions below are a shallow embedding of the Python source
file stage4_extreme_temps.py. Dates are modelled together with their
proleptic Gregorian ordinal (the day numbering used by the datetime
module), floating point temperature values are modelled by rational
numbers, and the streaming CSV writer is modelled by returning the list
of emitted rows. Exceptions raised by parsing are modelled with Except.
-/

/-- Calendar date, as constructed by datetime.datetime(year, month, day). -/
structure Date where
  y : Nat
  m : Nat
  d : Nat
deriving DecidableEq

/-- Gregorian leap year test, as used by the datetime module. -/
def isLeap (y : Nat) : Bool :=
  y % 4 == 0 && (!(y % 100 == 0) || y % 400 == 0)

/-- Number of days in month m of year y. -/
def daysInMonth (y m : Nat) : Nat :=
  if m = 2 then (if isLeap y then 29 else 28)
  else if m = 4 ∨ m = 6 ∨ m = 9 ∨ m = 11 then 30
  else 31

/-- Days of year y that precede the first day of month m. -/
def daysBeforeMonth (y m : Nat) : Nat :=
  ((List.range (m - 1)).map (fun i => daysInMonth y (i + 1))).sum

/-- Number of leap years among the years 1 .. y-1. -/
def leapsBefore (y : Nat) : Nat :=
  (y - 1) / 4 + (y - 1) / 400 - (y - 1) / 100

/-- Proleptic Gregorian ordinal of a date. The date (1,1,1) maps to 1,
exactly as datetime.datetime.toordinal, so differences of ordinals agree
with the day counts of timedelta values. -/
def toOrdinal (dt : Date) : Nat :=
  365 * (dt.y - 1) + leapsBefore dt.y + daysBeforeMonth dt.y dt.m + dt.d

/-- One output row, as written by ExtremeWaveDetector.dump_stack. The
location value is Option String because self.last_id is initially None. -/
structure OutRow where
  locId : Option String
  year : Nat
  month : Nat
  day : Nat
  extreme : String
  wave_id : Nat
  wave_index : Nat
  wave_length : Nat
deriving DecidableEq

/-- Mutable state of an ExtremeWaveDetector instance. -/
structure DState where
  lastDate : Date
  lastId : Option String
  dateStack : List Date
  waveId : Nat
  extremeLabel : String
deriving DecidableEq

/-- State of a freshly constructed detector: last_date is
datetime(1, 1, 1), last_id is None, the stack is empty and the wave
counter is wave_id_start. -/
def initState (label : String) (waveIdStart : Nat) : DState :=
  { lastDate := ⟨1, 1, 1⟩, lastId := none, dateStack := [],
    waveId := waveIdStart, extremeLabel := label }

/-- Rows written by the enumerate loop of dump_stack. The argument i is
the enumeration index of the first date of ds. -/
def stackRows (lid : Option String) (label : String) (wid len : Nat) :
    Nat → List Date → List OutRow
  | _, [] => []
  | i, dt :: ds =>
    { locId := lid, year := dt.y, month := dt.m, day := dt.d,
      extreme := label, wave_id := wid, wave_index := i + 1,
      wave_length := len } :: stackRows lid label wid len (i + 1) ds

/-- Model of ExtremeWaveDetector.dump_stack: increment the wave counter,
emit one row per stacked date, clear the stack. -/
def dumpStack (s : DState) : DState × List OutRow :=
  ({ s with waveId := s.waveId + 1, dateStack := [] },
   stackRows s.lastId s.extremeLabel (s.waveId + 1) s.dateStack.length 0 s.dateStack)

/-- One extreme-day record handed to push: the geographic id and the
parsed date. -/
structure ExtremeDay where
  locId : String
  date : Date
deriving DecidableEq

/-- Boundary test of push: the id changed or the date gap exceeds one
day. The difference is taken in Int, matching timedelta semantics. -/
def isNewGroup (s : DState) (r : ExtremeDay) : Bool :=
  decide (some r.locId ≠ s.lastId) ||
    decide ((toOrdinal r.date : Int) - (toOrdinal s.lastDate : Int) > 1)

/-- Model of ExtremeWaveDetector.push. -/
def push (s : DState) (r : ExtremeDay) : DState × List OutRow :=
  let step : DState × List OutRow :=
    if isNewGroup s r then
      if 0 < s.dateStack.length then dumpStack s
      else ({ s with dateStack := [] }, [])
    else (s, [])
  ({ step.1 with
     dateStack := step.1.dateStack ++ [r.date],
     lastDate := r.date,
     lastId := some r.locId }, step.2)

/-- Push a list of records in order, collecting emitted rows. -/
def runDetector (s : DState) : List ExtremeDay → DState × List OutRow
  | [] => (s, [])
  | r :: rs =>
    ((runDetector (push s r).1 rs).1,
     (push s r).2 ++ (runDetector (push s r).1 rs).2)

/-- One full detector pass as performed by extract_extremes: construct a
detector, push every record, then call dump_stack once unconditionally. -/
def runPass (label : String) (wStart : Nat) (recs : List ExtremeDay) :
    DState × List OutRow :=
  ((dumpStack (runDetector (initState label wStart) recs).1).1,
   (runDetector (initState label wStart) recs).2 ++
     (dumpStack (runDetector (initState label wStart) recs).1).2)

/-- Cold pass followed by heat pass, the heat detector continuing from
the final cold wave counter, exactly as in extract_extremes. Returns all
rows in emission order together with the final counter. -/
def fullRun (cold hot : List ExtremeDay) : List OutRow × Nat :=
  ((runPass "cold" 0 cold).2 ++
     (runPass "hot" (runPass "cold" 0 cold).1.waveId hot).2,
   (runPass "hot" (runPass "cold" 0 cold).1.waveId hot).1.waveId)

/-- One input row of a daily temperature table: the geographic id (the
value of the first column), the 8-digit date string and the value field,
both still unparsed strings. -/
structure InRow where
  locId : String
  date : String
  value : String
deriving DecidableEq

/-- Cutoff table of extract_quantiles: a defaultdict from year strings
to per-location threshold maps, modelled as insertion-ordered
association lists. -/
abbrev CutTable : Type := List (String × List (String × ℚ))

/-- Sentinel threshold used on a lookup miss. It models the float
literal -1e100 of the source (the rational is the exact power of ten;
the nearest double differs only in digits far below the leading ones,
which no claim depends on). -/
def sentinel : ℚ := -((10 ^ 100 : Nat) : ℚ)

/-- Model of indexing a defaultdict(dict) with a year key, as in
cutoffs[line["date"][:4]]: a present key returns its map and leaves the
table unchanged, a missing key inserts and returns an empty map. -/
def ddIndex (t : CutTable) (y : String) : List (String × ℚ) × CutTable :=
  match List.lookup y t with
  | some m => (m, t)
  | none => ([], t ++ [(y, [])])

/-- Numeric value of a list of decimal digit characters. -/
def digitsVal (cs : List Char) : Nat :=
  cs.foldl (fun a c => a * 10 + (c.toNat - 48)) 0

/-- Parse a nonempty all-digit character list, as int() does on digit
strings. -/
def parseDigits (cs : List Char) : Option Nat :=
  if cs.isEmpty then none
  else if cs.all (·.isDigit) then some (digitsVal cs) else none

/-- Model of float() restricted to plain decimal literals: an optional
sign followed by digits with an optional fractional part, at least one
digit in total. Anything else is a conversion error. -/
def parseValue (s : String) : Option ℚ :=
  let cs := s.toList
  let neg : Bool := match cs with
    | '-' :: _ => true
    | _ => false
  let body : List Char := match cs with
    | '-' :: r => r
    | '+' :: r => r
    | _ => cs
  let ip := body.takeWhile (fun c => c ≠ '.')
  let rest := body.dropWhile (fun c => c ≠ '.')
  let mag : Option ℚ :=
    match rest with
    | [] => (parseDigits ip).map (fun n => (n : ℚ))
    | _ :: fp =>
      if ip.all (·.isDigit) && fp.all (·.isDigit) && (!ip.isEmpty || !fp.isEmpty) then
        some ((digitsVal ip : ℚ) + (digitsVal fp : ℚ) / (10 : ℚ) ^ fp.length)
      else none
  mag.map (fun q => if neg then -q else q)

/-- Year key of an 8-digit date string, as in line["date"][:4]. The
slice is taken on the character list to keep the definition computable
by the kernel. -/
def yearKey (dateStr : String) : String := String.mk (dateStr.toList.take 4)

/-- Cold comparison of the filter: strictly below the threshold. -/
def ltCmp (v thr : ℚ) : Bool := decide (v < thr)

/-- Heat comparison of the filter: strictly above the threshold. -/
def gtCmp (v thr : ℚ) : Bool := decide (v > thr)

/-- Per-row work of the extreme-day list comprehension: convert the
value field with float(), index the cutoff defaultdict by the year
prefix of the date, look up the location with default sentinel, and
compare. Returns whether the row is kept plus the possibly grown table;
a conversion failure is the propagated ValueError. -/
def filterStep (cmp : ℚ → ℚ → Bool) (t : CutTable) (r : InRow) :
    Except String (Bool × CutTable) :=
  match parseValue r.value with
  | none => .error ("could not convert string to float: " ++ r.value)
  | some v =>
    .ok (cmp v ((List.lookup r.locId (ddIndex t (yearKey r.date)).1).getD sentinel),
         (ddIndex t (yearKey r.date)).2)

/-- Model of the extreme-day list comprehension over all input rows. -/
def runFilter (cmp : ℚ → ℚ → Bool) (t : CutTable) :
    List InRow → Except String (List InRow × CutTable)
  | [] => .ok ([], t)
  | r :: rs =>
    match filterStep cmp t r with
    | .error e => .error e
    | .ok (keep, t1) =>
      match runFilter cmp t1 rs with
      | .error e => .error e
      | .ok (kept, t2) => .ok ((if keep then r :: kept else kept), t2)

/-- Validity of datetime.datetime(y, m, d) arguments. -/
def validDate (y m d : Nat) : Bool :=
  decide (1 ≤ y) && decide (y ≤ 9999) && decide (1 ≤ m) && decide (m ≤ 12) &&
    decide (1 ≤ d) && decide (d ≤ daysInMonth y m)

/-- Model of the date construction in push: int() on the three slices of
the 8-digit date string, then datetime.datetime validation. Returns none
for the ValueError of int() and for invalid calendar components alike. -/
def parseDateStr (s : String) : Option Date :=
  let cs := s.toList
  match parseDigits (cs.take 4), parseDigits ((cs.drop 4).take 2),
      parseDigits ((cs.drop 6).take 2) with
  | some y, some m, some d => if validDate y m d then some ⟨y, m, d⟩ else none
  | _, _, _ => none

/-- Detector run over filtered input rows whose date strings still need
parsing inside push; a parse failure is the propagated exception. -/
def runDetectorE (s : DState) : List InRow → Except String (DState × List OutRow)
  | [] => .ok (s, [])
  | r :: rs =>
    match parseDateStr r.date with
    | none => .error ("invalid date string: " ++ r.date)
    | some dt =>
      match runDetectorE (push s ⟨r.locId, dt⟩).1 rs with
      | .error e => .error e
      | .ok (s2, rows2) => .ok (s2, (push s ⟨r.locId, dt⟩).2 ++ rows2)

/-- Sort key order of the passes: (location id, date string), both
compared as strings. -/
def rowLE (a b : InRow) : Bool :=
  decide (a.locId < b.locId ∨ (a.locId = b.locId ∧ a.date ≤ b.date))

/-- Stable insertion of a row into an already sorted list. -/
def insertRow (r : InRow) : List InRow → List InRow
  | [] => [r]
  | x :: xs => if rowLE r x then r :: x :: xs else x :: insertRow r xs

/-- Stable sort by (location id, date string), modelling sorted() with
that key. -/
def sortRows : List InRow → List InRow
  | [] => []
  | r :: rs => insertRow r (sortRows rs)

/-- Model of the cold half of extract_extremes: filter with the strict
less-than comparison, sort, run a fresh detector from wave id 0, then
dump the last stack unconditionally. Returns the emitted rows, the final
wave counter (the last_wave_id handed to the heat pass) and the cutoff
table as it stands afterwards. A raised exception aborts the pass with
no output artifact, since the temporary file is never renamed. -/
def coldPass (t : CutTable) (input : List InRow) :
    Except String (List OutRow × Nat × CutTable) :=
  match runFilter ltCmp t input with
  | .error e => .error e
  | .ok (kept, t1) =>
    match runDetectorE (initState "cold" 0) (sortRows kept) with
    | .error e => .error e
    | .ok (s, rows) =>
      .ok (rows ++ (dumpStack s).2, (dumpStack s).1.waveId, t1)

/-- Number of pending stacked dates currently attributed to location ℓ:
the stack size when the last seen id is ℓ, otherwise zero. -/
def pendOf (ℓ : String) (s : DState) : Nat :=
  if s.lastId = some ℓ then s.dateStack.length else 0

/-- Number of emitted rows carrying location ℓ. -/
def countRows (ℓ : String) (rows : List OutRow) : Nat :=
  (rows.filter (fun row => decide (row.locId = some ℓ))).length

/-- Number of pushed records carrying location ℓ. -/
def countRecs (ℓ : String) (recs : List ExtremeDay) : Nat :=
  (recs.filter (fun r => decide (r.locId = ℓ))).length

/-- Observable cutoff lookup: the threshold entry the filter consults
for a year and a location. -/
def thrOf (t : CutTable) (y ℓ : String) : Option ℚ :=
  ((List.lookup y t).getD []).lookup ℓ

/-- Blocks w0 w1 l holds when l is a concatenation of nonempty constant
blocks whose values are the consecutive integers w0+1, w0+2, ..., w1 in
order: the shape of the wave id column of a detector output in which
every consumed wave id was emitted at least once. -/
inductive Blocks : Nat → Nat → List Nat → Prop where
  | nil (w : Nat) : Blocks w w []
  | cons (w0 w1 n : Nat) (tail : List Nat) (hn : 0 < n)
      (ht : Blocks (w0 + 1) w1 tail) :
      Blocks w0 w1 (List.replicate n (w0 + 1) ++ tail)

theorem stackRows_length (lid : Option String) (label : String) (wid len : Nat) :
    ∀ (ds : List Date) (i : Nat), (stackRows lid label wid len i ds).length = ds.length := by
  intro ds
  induction ds with
  | nil => intro i; rfl
  | cons d ds ih => intro i; simp [stackRows, ih]

theorem stackRows_map_waveId (lid : Option String) (label : String) (wid len : Nat) :
    ∀ (ds : List Date) (i : Nat),
      (stackRows lid label wid len i ds).map (fun row => row.wave_id) =
        List.replicate ds.length wid := by
  intro ds
  induction ds with
  | nil => intro i; rfl
  | cons d ds ih => intro i; simp [stackRows, ih, List.replicate_succ]

theorem stackRows_filter_loc (ℓ : String) (lid : Option String) (label : String)
    (wid len : Nat) :
    ∀ (ds : List Date) (i : Nat),
      ((stackRows lid label wid len i ds).filter
          (fun row => decide (row.locId = some ℓ))).length =
        if lid = some ℓ then ds.length else 0 := by
  intro ds
  induction ds with
  | nil => intro i; simp [stackRows]
  | cons d ds ih =>
    intro i
    by_cases h : lid = some ℓ
    · subst h
      simp [stackRows, ih]
    · simp [stackRows, h, ih]

theorem stackRows_extreme (lid : Option String) (label : String) (wid len : Nat) :
    ∀ (ds : List Date) (i : Nat) (row : OutRow),
      row ∈ stackRows lid label wid len i ds → row.extreme = label := by
  intro ds
  induction ds with
  | nil => intro i row h; cases h
  | cons d ds ih =>
    intro i row h
    rcases List.mem_cons.mp h with h | h
    · subst h; rfl
    · exact ih (i + 1) row h

theorem stackRows_getElem (lid : Option String) (label : String) (wid len : Nat) :
    ∀ (ds : List Date) (i j : Nat) (dt : Date), ds[j]? = some dt →
      (stackRows lid label wid len i ds)[j]? =
        some ⟨lid, dt.y, dt.m, dt.d, label, wid, i + j + 1, len⟩ := by
  intro ds
  induction ds with
  | nil => intro i j dt h; simp at h
  | cons d ds ih =>
    intro i j dt h
    cases j with
    | zero =>
      simp at h
      subst h
      simp [stackRows]
    | succ j =>
      simp only [List.getElem?_cons_succ] at h
      have := ih (i + 1) j dt h
      have harith : i + 1 + j + 1 = i + (j + 1) + 1 := by omega
      rw [harith] at this
      simpa [stackRows] using this

theorem dumpStack_fst (s : DState) :
    (dumpStack s).1 = { s with waveId := s.waveId + 1, dateStack := [] } := rfl

theorem dumpStack_ids (s : DState) :
    (dumpStack s).2.map (fun row => row.wave_id) =
      List.replicate s.dateStack.length (s.waveId + 1) :=
  stackRows_map_waveId _ _ _ _ _ _

theorem push_stack_ne (s : DState) (r : ExtremeDay) :
    (push s r).1.dateStack ≠ [] := by
  simp [push]

theorem push_extremeLabel (s : DState) (r : ExtremeDay) :
    (push s r).1.extremeLabel = s.extremeLabel := by
  simp only [push]
  split
  · split <;> rfl
  · rfl

theorem push_spec (s : DState) (r : ExtremeDay) :
    ((push s r).2 = [] ∧ (push s r).1.waveId = s.waveId) ∨
      (0 < s.dateStack.length ∧ (push s r).2 = (dumpStack s).2 ∧
        (push s r).1.waveId = s.waveId + 1) := by
  by_cases h1 : isNewGroup s r = true
  · by_cases h2 : 0 < s.dateStack.length
    · right
      refine ⟨h2, ?_, ?_⟩ <;> simp [push, h1, h2, dumpStack]
    · left
      constructor <;> simp [push, h1, h2]
  · left
    constructor <;> simp [push, h1]

theorem Blocks.le {w0 w1 : Nat} {l : List Nat} (h : Blocks w0 w1 l) : w0 ≤ w1 := by
  induction h with
  | nil w => exact Nat.le_refl w
  | cons a b n tail hn ht ih => omega

theorem Blocks.append {w0 w1 w2 : Nat} {l1 l2 : List Nat} (h1 : Blocks w0 w1 l1) :
    Blocks w1 w2 l2 → Blocks w0 w2 (l1 ++ l2) := by
  induction h1 with
  | nil w => intro h2; simpa using h2
  | cons a b n tail hn ht ih =>
    intro h2
    rw [List.append_assoc]
    exact Blocks.cons _ _ _ _ hn (ih h2)

theorem Blocks.mem_iff {w0 w1 : Nat} {l : List Nat} (h : Blocks w0 w1 l) :
    ∀ x, x ∈ l ↔ w0 < x ∧ x ≤ w1 := by
  induction h with
  | nil w =>
    intro x
    constructor
    · intro hx
      exact absurd hx (List.not_mem_nil x)
    · intro hx
      omega
  | cons a b n tail hn ht ih =>
    intro x
    have hb : a + 1 ≤ b := ht.le
    have hx := ih x
    simp only [List.mem_append, List.mem_replicate, hx]
    omega

theorem Blocks.head_eq {w0 w1 : Nat} {l : List Nat} (h : Blocks w0 w1 l) (hne : l ≠ []) :
    l.head? = some (w0 + 1) := by
  cases h with
  | nil w => exact absurd rfl hne
  | cons a b n tail hn ht =>
    cases n with
    | zero => omega
    | succ k => simp [List.replicate_succ]

theorem chain_le_replicate (n : Nat) (c : Nat) :
    List.Chain' (fun a b => a ≤ b) (List.replicate n c) := by
  induction n with
  | zero => simp
  | succ k ih =>
    rw [List.replicate_succ]
    refine List.chain'_cons'.mpr ⟨?_, ih⟩
    intro y hy
    cases k with
    | zero => simp at hy
    | succ m =>
      rw [List.replicate_succ] at hy
      simp at hy
      omega

theorem getLast_replicate (n : Nat) (c : Nat) (hn : 0 < n) :
    (List.replicate n c).getLast? = some c := by
  cases n with
  | zero => omega
  | succ k => rw [List.replicate_succ', List.getLast?_concat]

theorem Blocks.chain {w0 w1 : Nat} {l : List Nat} (h : Blocks w0 w1 l) :
    List.Chain' (fun a b => a ≤ b) l := by
  induction h with
  | nil w => simp
  | cons a b n tail hn ht ih =>
    refine List.chain'_append.mpr ⟨chain_le_replicate n (a + 1), ih, ?_⟩
    intro x hx y hy
    rw [getLast_replicate n (a + 1) hn] at hx
    cases hx
    have hy' : y ∈ tail := by
      cases tail with
      | nil => simp at hy
      | cons t ts =>
        simp at hy
        subst hy
        exact List.mem_cons_self _ _
    have := (ht.mem_iff y).mp hy'
    omega

theorem runDetector_blocks (recs : List ExtremeDay) :
    ∀ s : DState,
      Blocks s.waveId (runDetector s recs).1.waveId
        ((runDetector s recs).2.map (fun row => row.wave_id)) := by
  induction recs with
  | nil => intro s; exact Blocks.nil _
  | cons r rs ih =>
    intro s
    rcases push_spec s r with ⟨h2, h1⟩ | ⟨hlen, h2, h1⟩
    · simp only [runDetector, List.map_append, h2, List.map_nil, List.nil_append]
      have hrest := ih (push s r).1
      rw [h1] at hrest
      exact hrest
    · simp only [runDetector, List.map_append, h2, dumpStack_ids]
      have hrest := ih (push s r).1
      rw [h1] at hrest
      exact Blocks.cons _ _ _ _ hlen hrest

theorem runDetector_stack_ne (recs : List ExtremeDay) :
    ∀ s : DState, recs ≠ [] → (runDetector s recs).1.dateStack ≠ [] := by
  induction recs with
  | nil => intro s h; exact absurd rfl h
  | cons r rs ih =>
    intro s _
    show (runDetector (push s r).1 rs).1.dateStack ≠ []
    by_cases hrs : rs = []
    · subst hrs
      exact push_stack_ne s r
    · exact ih (push s r).1 hrs

theorem runDetector_extremeLabel (recs : List ExtremeDay) :
    ∀ s : DState, (runDetector s recs).1.extremeLabel = s.extremeLabel := by
  induction recs with
  | nil => intro s; rfl
  | cons r rs ih =>
    intro s
    show (runDetector (push s r).1 rs).1.extremeLabel = s.extremeLabel
    rw [ih (push s r).1, push_extremeLabel]

theorem runDetector_rows_extreme (recs : List ExtremeDay) :
    ∀ (s : DState) (row : OutRow), row ∈ (runDetector s recs).2 →
      row.extreme = s.extremeLabel := by
  induction recs with
  | nil => intro s row h; cases h
  | cons r rs ih =>
    intro s row h
    rcases List.mem_append.mp h with h | h
    · rcases push_spec s r with ⟨h2, _⟩ | ⟨_, h2, _⟩
      · rw [h2] at h
        cases h
      · rw [h2] at h
        exact stackRows_extreme _ _ _ _ _ _ row h
    · rw [← push_extremeLabel s r]
      exact ih (push s r).1 row h

theorem runPass_blocks (label : String) (wStart : Nat) (recs : List ExtremeDay)
    (h : recs ≠ []) :
    Blocks wStart (runPass label wStart recs).1.waveId
      ((runPass label wStart recs).2.map (fun row => row.wave_id)) := by
  have hb := runDetector_blocks recs (initState label wStart)
  have hs := runDetector_stack_ne recs (initState label wStart) h
  have hpos : 0 < (runDetector (initState label wStart) recs).1.dateStack.length :=
    List.length_pos.mpr hs
  have hdump :
      Blocks (runDetector (initState label wStart) recs).1.waveId
        ((runDetector (initState label wStart) recs).1.waveId + 1)
        ((dumpStack (runDetector (initState label wStart) recs).1).2.map
          (fun row => row.wave_id)) := by
    rw [dumpStack_ids]
    have := Blocks.cons (runDetector (initState label wStart) recs).1.waveId
      ((runDetector (initState label wStart) recs).1.waveId + 1)
      (runDetector (initState label wStart) recs).1.dateStack.length [] hpos
      (Blocks.nil _)
    simpa using this
  simp only [runPass, List.map_append]
  exact hb.append hdump
theorem push_count (ℓ : String) (s : DState) (r : ExtremeDay) :
    countRows ℓ (push s r).2 + pendOf ℓ (push s r).1 =
      pendOf ℓ s + (if r.locId = ℓ then 1 else 0) := by
  by_cases h1 : isNewGroup s r = true
  · by_cases h2 : 0 < s.dateStack.length
    · have hrows : (push s r).2 = (dumpStack s).2 := by simp [push, h1, h2]
      have hstack : (push s r).1.dateStack = [r.date] := by
        simp [push, h1, h2, dumpStack]
      have hlast : (push s r).1.lastId = some r.locId := by simp [push, h1, h2]
      have hcount : countRows ℓ (dumpStack s).2 = pendOf ℓ s := by
        simp only [countRows, dumpStack, pendOf]
        rw [stackRows_filter_loc]
      rw [hrows, hcount]
      simp only [pendOf, hlast, hstack, List.length_cons, List.length_nil]
      by_cases hℓ : r.locId = ℓ
      · simp [hℓ]
      · have hne : ¬(some r.locId = some ℓ) := by simpa using hℓ
        simp [hℓ, hne]
    · have hlen : s.dateStack.length = 0 := by omega
      have hrows : (push s r).2 = [] := by simp [push, h1, h2]
      have hstack : (push s r).1.dateStack = [r.date] := by simp [push, h1, h2]
      have hlast : (push s r).1.lastId = some r.locId := by simp [push, h1, h2]
      rw [hrows]
      simp only [countRows, List.filter_nil, List.length_nil, pendOf, hlast, hstack,
        List.length_cons, hlen]
      by_cases hℓ : r.locId = ℓ
      · simp [hℓ]
      · have hne : ¬(some r.locId = some ℓ) := by simpa using hℓ
        simp [hℓ, hne]
  · have heq : some r.locId = s.lastId := by
      simp only [isNewGroup, Bool.or_eq_true, decide_eq_true_eq] at h1
      push_neg at h1
      exact h1.1
    have hrows : (push s r).2 = [] := by simp [push, h1]
    have hstack : (push s r).1.dateStack = s.dateStack ++ [r.date] := by
      simp [push, h1]
    have hlast : (push s r).1.lastId = some r.locId := by simp [push, h1]
    rw [hrows]
    simp only [countRows, List.filter_nil, List.length_nil, pendOf, hlast, hstack,
      List.length_append, List.length_cons, List.length_nil]
    rw [← heq]
    by_cases hℓ : r.locId = ℓ
    · simp [hℓ]
    · have hne : ¬(some r.locId = some ℓ) := by simpa using hℓ
      simp [hℓ, hne]

theorem push_len (s : DState) (r : ExtremeDay) :
    (push s r).2.length + (push s r).1.dateStack.length = s.dateStack.length + 1 := by
  by_cases h1 : isNewGroup s r = true
  · by_cases h2 : 0 < s.dateStack.length
    · have hrows : (push s r).2 = (dumpStack s).2 := by simp [push, h1, h2]
      have hstack : (push s r).1.dateStack = [r.date] := by
        simp [push, h1, h2, dumpStack]
      rw [hrows, hstack]
      simp [dumpStack, stackRows_length]
    · have hrows : (push s r).2 = [] := by simp [push, h1, h2]
      have hstack : (push s r).1.dateStack = [r.date] := by simp [push, h1, h2]
      rw [hrows, hstack]
      simp only [List.length_nil, List.length_cons]
      omega
  · have hrows : (push s r).2 = [] := by simp [push, h1]
    have hstack : (push s r).1.dateStack = s.dateStack ++ [r.date] := by
      simp [push, h1]
    rw [hrows, hstack]
    simp

theorem runDetector_count (ℓ : String) (recs : List ExtremeDay) :
    ∀ s : DState,
      countRows ℓ (runDetector s recs).2 + pendOf ℓ (runDetector s recs).1 =
        pendOf ℓ s + countRecs ℓ recs := by
  induction recs with
  | nil => intro s; simp [countRows, countRecs, runDetector]
  | cons r rs ih =>
    intro s
    have hpush := push_count ℓ s r
    have hrest := ih (push s r).1
    have hsplit : countRows ℓ (runDetector s (r :: rs)).2 =
        countRows ℓ (push s r).2 + countRows ℓ (runDetector (push s r).1 rs).2 := by
      show countRows ℓ ((push s r).2 ++ (runDetector (push s r).1 rs).2) = _
      simp [countRows, List.filter_append]
    have hfst : (runDetector s (r :: rs)).1 = (runDetector (push s r).1 rs).1 := rfl
    have hcrecs : countRecs ℓ (r :: rs) =
        (if r.locId = ℓ then 1 else 0) + countRecs ℓ rs := by
      by_cases hℓ : r.locId = ℓ
      · simp [countRecs, List.filter_cons, hℓ, Nat.add_comm]
      · simp [countRecs, List.filter_cons, hℓ]
    rw [hsplit, hfst, hcrecs]
    omega

theorem runDetector_len (recs : List ExtremeDay) :
    ∀ s : DState,
      (runDetector s recs).2.length + (runDetector s recs).1.dateStack.length =
        s.dateStack.length + recs.length := by
  induction recs with
  | nil => intro s; simp [runDetector]
  | cons r rs ih =>
    intro s
    have hpush := push_len s r
    have hrest := ih (push s r).1
    have hsplit : (runDetector s (r :: rs)).2.length =
        (push s r).2.length + (runDetector (push s r).1 rs).2.length := by
      show ((push s r).2 ++ (runDetector (push s r).1 rs).2).length = _
      simp
    have hfst : (runDetector s (r :: rs)).1 = (runDetector (push s r).1 rs).1 := rfl
    rw [hsplit, hfst]
    simp only [List.length_cons]
    omega

theorem runPass_count (label : String) (wStart : Nat) (recs : List ExtremeDay)
    (ℓ : String) :
    countRows ℓ (runPass label wStart recs).2 = countRecs ℓ recs := by
  have h := runDetector_count ℓ recs (initState label wStart)
  have hinit : pendOf ℓ (initState label wStart) = 0 := rfl
  have hsplit : countRows ℓ (runPass label wStart recs).2 =
      countRows ℓ (runDetector (initState label wStart) recs).2 +
        countRows ℓ (dumpStack (runDetector (initState label wStart) recs).1).2 := by
    show countRows ℓ (_ ++ _) = _
    simp [countRows, List.filter_append]
  have hdump : countRows ℓ (dumpStack (runDetector (initState label wStart) recs).1).2 =
      pendOf ℓ (runDetector (initState label wStart) recs).1 := by
    simp only [countRows, dumpStack, pendOf]
    rw [stackRows_filter_loc]
  rw [hsplit, hdump]
  omega

theorem runPass_len (label : String) (wStart : Nat) (recs : List ExtremeDay) :
    (runPass label wStart recs).2.length = recs.length := by
  have h := runDetector_len recs (initState label wStart)
  have hsplit : (runPass label wStart recs).2.length =
      (runDetector (initState label wStart) recs).2.length +
        (dumpStack (runDetector (initState label wStart) recs).1).2.length := by
    simp [runPass]
  have hdump : (dumpStack (runDetector (initState label wStart) recs).1).2.length =
      (runDetector (initState label wStart) recs).1.dateStack.length := by
    simp [dumpStack, stackRows_length]
  have hinit : (initState label wStart).dateStack.length = 0 := rfl
  rw [hsplit, hdump]
  omega

theorem runPass_rows_extreme (label : String) (wStart : Nat) (recs : List ExtremeDay) :
    ∀ row ∈ (runPass label wStart recs).2, row.extreme = label := by
  intro row h
  have h' : row ∈ (runDetector (initState label wStart) recs).2 ++
      (dumpStack (runDetector (initState label wStart) recs).1).2 := h
  rcases List.mem_append.mp h' with h'' | h''
  · exact runDetector_rows_extreme recs (initState label wStart) row h''
  · have hx := stackRows_extreme _ _ _ _ _ _ row h''
    rw [hx, runDetector_extremeLabel]
    rfl

theorem lookup_cons_ite {β : Type} (a k : String) (v : β) (l : List (String × β)) :
    List.lookup a ((k, v) :: l) = if a = k then some v else List.lookup a l := by
  by_cases h : a = k
  · subst h
    simp [List.lookup]
  · have hb : (a == k) = false := beq_eq_false_iff_ne.mpr h
    simp [List.lookup, hb, h]

theorem thrOf_append_empty (y : String) :
    ∀ t : CutTable, List.lookup y t = none →
      ∀ y' ℓ, thrOf (t ++ [(y, [])]) y' ℓ = thrOf t y' ℓ := by
  intro t
  induction t with
  | nil =>
    intro _ y' ℓ
    simp only [thrOf, List.nil_append, List.lookup_nil, lookup_cons_ite]
    by_cases h : y' = y <;> simp [h, List.lookup]
  | cons p t ih =>
    intro hy y' ℓ
    obtain ⟨k, m⟩ := p
    rw [lookup_cons_ite] at hy
    by_cases hk : y = k
    · simp [hk] at hy
    · simp only [hk, if_neg, ite_false] at hy
      simp only [thrOf, List.cons_append, lookup_cons_ite]
      by_cases h' : y' = k
      · simp [h']
      · simp only [h', ite_false]
        exact ih hy y' ℓ

theorem thrOf_ddIndex (t : CutTable) (y y' ℓ : String) :
    thrOf (ddIndex t y).2 y' ℓ = thrOf t y' ℓ := by
  cases hy : List.lookup y t with
  | some m => simp [ddIndex, hy]
  | none =>
    simp only [ddIndex, hy]
    exact thrOf_append_empty y t hy y' ℓ

theorem runFilter_thrOf (cmp : ℚ → ℚ → Bool) (input : List InRow) :
    ∀ (t : CutTable) (kept : List InRow) (t' : CutTable),
      runFilter cmp t input = .ok (kept, t') →
        ∀ y ℓ, thrOf t' y ℓ = thrOf t y ℓ := by
  induction input with
  | nil =>
    intro t kept t' h y ℓ
    simp only [runFilter, Except.ok.injEq, Prod.mk.injEq] at h
    rw [← h.2]
  | cons r rs ih =>
    intro t kept t' h y ℓ
    cases hps : parseValue r.value with
    | none =>
      have hfs : filterStep cmp t r =
          .error ("could not convert string to float: " ++ r.value) := by
        simp [filterStep, hps]
      simp only [runFilter, hfs] at h
      exact Except.noConfusion h
    | some v =>
      have hfs : filterStep cmp t r =
          .ok (cmp v ((List.lookup r.locId (ddIndex t (yearKey r.date)).1).getD sentinel),
            (ddIndex t (yearKey r.date)).2) := by
        simp [filterStep, hps]
      simp only [runFilter, hfs] at h
      cases hrf : runFilter cmp (ddIndex t (yearKey r.date)).2 rs with
      | error e => rw [hrf] at h; simp at h
      | ok p =>
        obtain ⟨k2, t2⟩ := p
        rw [hrf] at h
        simp only [Except.ok.injEq, Prod.mk.injEq] at h
        have ht2 : t2 = t' := h.2
        subst ht2
        rw [ih (ddIndex t (yearKey r.date)).2 k2 t2 hrf y ℓ]
        exact thrOf_ddIndex t (yearKey r.date) y ℓ

theorem runFilter_fail (cmp : ℚ → ℚ → Bool) (input : List InRow) :
    ∀ (t : CutTable) (r : InRow), r ∈ input → parseValue r.value = none →
      ∃ e, runFilter cmp t input = .error e := by
  induction input with
  | nil => intro t r h _; cases h
  | cons x xs ih =>
    intro t r hmem hval
    rcases List.mem_cons.mp hmem with h | h
    · subst h
      exact ⟨"could not convert string to float: " ++ r.value,
        by simp [runFilter, filterStep, hval]⟩
    · cases hfs : filterStep cmp t x with
      | error e => exact ⟨e, by simp [runFilter, hfs]⟩
      | ok p =>
        obtain ⟨keep, t1⟩ := p
        obtain ⟨e, he⟩ := ih t1 r h hval
        exact ⟨e, by simp [runFilter, hfs, he]⟩

theorem runDetectorE_fail (recs : List InRow) :
    ∀ (s : DState) (r : InRow), r ∈ recs → parseDateStr r.date = none →
      ∃ e, runDetectorE s recs = .error e := by
  induction recs with
  | nil => intro s r h _; cases h
  | cons x xs ih =>
    intro s r hmem hval
    rcases List.mem_cons.mp hmem with h | h
    · subst h
      exact ⟨"invalid date string: " ++ r.date, by simp [runDetectorE, hval]⟩
    · cases hpd : parseDateStr x.date with
      | none =>
        exact ⟨"invalid date string: " ++ x.date, by simp [runDetectorE, hpd]⟩
      | some dt =>
        obtain ⟨e, he⟩ := ih (push s ⟨x.locId, dt⟩).1 r h hval
        exact ⟨e, by simp [runDetectorE, hpd, he]⟩

/-- Sanity anchor: the ordinal function agrees with the datetime module
on a modern date and on the initial last_date value datetime(1, 1, 1). -/
theorem toOrdinal_anchor : toOrdinal ⟨2020, 1, 1⟩ = 737425 ∧ toOrdinal ⟨1, 1, 1⟩ = 1 := by
  constructor <;> decide

/-- C1: the claim says that in the heat pass, an observation whose
(year, location) pair is missing from the hot cutoff table is classified
not extreme, the sentinel acting as an uncrossable threshold exactly as
in the cold pass. The code disagrees: the heat pass compares with strict
greater-than against the same sentinel -1e100, which every ordinary
value exceeds. This theorem evaluates the code at the failing input: a
value of 10 with an empty cutoff table is kept as an extreme heat day. -/
theorem C1_missing_cutoff_heat_eval :
    filterStep gtCmp [] ⟨"A", "20200615", "10"⟩ = .ok (true, [("2020", [])]) ∧
      runFilter gtCmp [] [⟨"A", "20200615", "10"⟩] =
        .ok ([⟨"A", "20200615", "10"⟩], [("2020", [])]) := by
  constructor <;> rfl

/-- C5: Scenario A. On the sorted all-cold input (A, 20200101),
(A, 20200102), (A, 20200105), a detector starting from wave_id_start 0
followed by a final explicit flush emits exactly the three claimed rows
forming two waves. -/
theorem C5_scenarioA :
    (runPass "cold" 0
        [⟨"A", ⟨2020, 1, 1⟩⟩, ⟨"A", ⟨2020, 1, 2⟩⟩, ⟨"A", ⟨2020, 1, 5⟩⟩]).2 =
      [⟨some "A", 2020, 1, 1, "cold", 1, 1, 2⟩,
       ⟨some "A", 2020, 1, 2, "cold", 1, 2, 2⟩,
       ⟨some "A", 2020, 1, 5, "cold", 2, 1, 1⟩] := by
  decide

/-- C6: Scenario B. On the sorted input (A, 20200101), (B, 20200101),
(B, 20200102), the detector emits wave 1 as the singleton for location A
and wave 2 as location B over the two days: a change of location forces
a flush even with no date gap. -/
theorem C6_scenarioB :
    (runPass "cold" 0
        [⟨"A", ⟨2020, 1, 1⟩⟩, ⟨"B", ⟨2020, 1, 1⟩⟩, ⟨"B", ⟨2020, 1, 2⟩⟩]).2 =
      [⟨some "A", 2020, 1, 1, "cold", 1, 1, 1⟩,
       ⟨some "B", 2020, 1, 1, "cold", 2, 1, 2⟩,
       ⟨some "B", 2020, 1, 2, "cold", 2, 2, 2⟩] := by
  decide

/-- C7: whenever the pending date list is nonempty, a flush increments
the wave counter once, emits exactly one row per pending date in push
order with the previously seen location id, the fixed extreme label, the
new counter value, the 1-based position and the pending count, clears
the pending list, and a push that hits a new group emits exactly the
rows of an explicit flush. -/
theorem C7_flush_spec (s : DState) (h : s.dateStack ≠ []) :
    (dumpStack s).1.waveId = s.waveId + 1 ∧
    (dumpStack s).1.dateStack = [] ∧
    (dumpStack s).2.length = s.dateStack.length ∧
    (∀ (j : Nat) (dt : Date), s.dateStack[j]? = some dt →
      (dumpStack s).2[j]? =
        some ⟨s.lastId, dt.y, dt.m, dt.d, s.extremeLabel, s.waveId + 1, j + 1,
          s.dateStack.length⟩) ∧
    (∀ r : ExtremeDay, isNewGroup s r = true → (push s r).2 = (dumpStack s).2) := by
  refine ⟨rfl, rfl, stackRows_length _ _ _ _ _ _, ?_, ?_⟩
  · intro j dt hj
    have hg := stackRows_getElem s.lastId s.extremeLabel (s.waveId + 1)
      s.dateStack.length s.dateStack 0 j dt hj
    simpa using hg
  · intro r hr
    have hpos : 0 < s.dateStack.length := List.length_pos.mpr h
    simp [push, hr, hpos]

/-- Witness for C7 at a concrete state with two pending dates. -/
theorem C7_flush_spec_witness :
    (dumpStack (⟨⟨2020, 1, 3⟩, some "A", [⟨2020, 1, 1⟩, ⟨2020, 1, 2⟩], 0,
        "cold"⟩ : DState)).1.waveId = 1 :=
  (C7_flush_spec
    (⟨⟨2020, 1, 3⟩, some "A", [⟨2020, 1, 1⟩, ⟨2020, 1, 2⟩], 0, "cold"⟩ : DState)
    (by decide)).1

/-- C8: a value exactly equal to its looked-up cutoff threshold is not
extreme, both under the cold strict less-than comparison and under the
heat strict greater-than comparison, and the table is left unchanged. -/
theorem C8_boundary (t : CutTable) (r : InRow) (m : List (String × ℚ)) (thr : ℚ)
    (hy : List.lookup (yearKey r.date) t = some m)
    (hl : List.lookup r.locId m = some thr)
    (hv : parseValue r.value = some thr) :
    filterStep ltCmp t r = .ok (false, t) ∧ filterStep gtCmp t r = .ok (false, t) := by
  have hdd : ddIndex t (yearKey r.date) = (m, t) := by simp [ddIndex, hy]
  constructor <;> simp [filterStep, hv, hdd, hl, ltCmp, gtCmp, lt_irrefl]

/-- Witness for C8: a value of 5 against a stored threshold of 5 is
dropped by both passes. -/
theorem C8_boundary_witness :
    filterStep ltCmp [("2020", [("A", 5)])] ⟨"A", "20200101", "5"⟩ =
        .ok (false, [("2020", [("A", 5)])]) ∧
      filterStep gtCmp [("2020", [("A", 5)])] ⟨"A", "20200101", "5"⟩ =
        .ok (false, [("2020", [("A", 5)])]) :=
  C8_boundary [("2020", [("A", 5)])] ⟨"A", "20200101", "5"⟩ [("A", 5)] 5
    (by decide) (by decide) (by decide)

/-- C10: every call to dump_stack increments the wave counter by exactly
one and leaves the pending list empty, and when the pending list was
already empty no rows are emitted although a wave id is still consumed. -/
theorem C10_dump_consumes_id (s : DState) :
    (dumpStack s).1.waveId = s.waveId + 1 ∧ (dumpStack s).1.dateStack = [] ∧
      (s.dateStack = [] → (dumpStack s).2 = []) := by
  refine ⟨rfl, rfl, ?_⟩
  intro h
  simp [dumpStack, h, stackRows]

/-- Witness for C10 at a freshly constructed detector with an empty
pending list: the counter still advances from 0 to 1 with no rows. -/
theorem C10_dump_consumes_id_witness :
    (dumpStack (initState "cold" 0)).1.waveId = (initState "cold" 0).waveId + 1 ∧
      (dumpStack (initState "cold" 0)).1.dateStack = [] ∧
      (dumpStack (initState "cold" 0)).2 = [] :=
  ⟨(C10_dump_consumes_id (initState "cold" 0)).1,
   (C10_dump_consumes_id (initState "cold" 0)).2.1,
   (C10_dump_consumes_id (initState "cold" 0)).2.2 rfl⟩

/-- C2 counterexample: with an empty cold pass and one heat day, the
final unconditional cold flush still consumes wave id 1, so the first
heat wave is emitted with wave id 2, while the claim predicts 1. -/
theorem C2_counterexample :
    ((fullRun [] [⟨"C", ⟨2020, 6, 1⟩⟩]).1).map (fun row => row.wave_id) = [2] ∧
      ((fullRun [] [⟨"C", ⟨2020, 6, 1⟩⟩]).1).map (fun row => row.wave_id) ≠ [1] := by
  constructor <;> decide

/-- C2 amended: across one full run in which both passes push at least
one record, emitted wave ids are nondecreasing along the output, the set
of emitted wave ids is exactly the consecutive range from 1 to the final
counter with no gaps or repeats at wave granularity, and the first
heat-pass wave id equals the last cold-pass wave id plus one. -/
theorem C2_wave_ids_amended (cold hot : List ExtremeDay)
    (hc : cold ≠ []) (hh : hot ≠ []) :
    List.Chain' (fun a b => a ≤ b) ((fullRun cold hot).1.map (fun row => row.wave_id)) ∧
    (∀ x, x ∈ (fullRun cold hot).1.map (fun row => row.wave_id) ↔
      1 ≤ x ∧ x ≤ (fullRun cold hot).2) ∧
    ((runPass "hot" (runPass "cold" 0 cold).1.waveId hot).2.map
        (fun row => row.wave_id)).head? =
      some ((runPass "cold" 0 cold).1.waveId + 1) := by
  have hbc := runPass_blocks "cold" 0 cold hc
  have hbh := runPass_blocks "hot" (runPass "cold" 0 cold).1.waveId hot hh
  have hall : Blocks 0 (fullRun cold hot).2
      ((fullRun cold hot).1.map (fun row => row.wave_id)) := by
    simp only [fullRun, List.map_append]
    exact hbc.append hbh
  refine ⟨hall.chain, ?_, ?_⟩
  · intro x
    exact hall.mem_iff x
  · have hlen := runPass_len "hot" (runPass "cold" 0 cold).1.waveId hot
    have hne : (runPass "hot" (runPass "cold" 0 cold).1.waveId hot).2.map
        (fun row => row.wave_id) ≠ [] := by
      intro hcontra
      have hnil : (runPass "hot" (runPass "cold" 0 cold).1.waveId hot).2 = [] :=
        List.map_eq_nil_iff.mp hcontra
      rw [hnil] at hlen
      simp only [List.length_nil] at hlen
      exact hh (List.length_eq_zero.mp hlen.symm)
    exact hbh.head_eq hne

/-- Witness for C2 amended with one cold day and one heat day. -/
theorem C2_wave_ids_amended_witness :
    ((runPass "hot" (runPass "cold" 0 [⟨"A", ⟨2020, 1, 1⟩⟩]).1.waveId
        [⟨"B", ⟨2020, 7, 1⟩⟩]).2.map (fun row => row.wave_id)).head? =
      some ((runPass "cold" 0 [⟨"A", ⟨2020, 1, 1⟩⟩]).1.waveId + 1) :=
  (C2_wave_ids_amended [⟨"A", ⟨2020, 1, 1⟩⟩] [⟨"B", ⟨2020, 7, 1⟩⟩]
    (by decide) (by decide)).2.2

/-- C3 counterexample: on Scenario A the sum of the wave_length field
over all emitted rows of location A is 5 while only 3 extreme-day
records were pushed, because every one of the n rows of a wave of length
n repeats the full length n. -/
theorem C3_counterexample :
    (((runPass "cold" 0
        [⟨"A", ⟨2020, 1, 1⟩⟩, ⟨"A", ⟨2020, 1, 2⟩⟩, ⟨"A", ⟨2020, 1, 5⟩⟩]).2).map
      (fun row => row.wave_length)).sum = 5 ∧
    countRecs "A" [⟨"A", ⟨2020, 1, 1⟩⟩, ⟨"A", ⟨2020, 1, 2⟩⟩, ⟨"A", ⟨2020, 1, 5⟩⟩] = 3 ∧
    (5 : Nat) ≠ 3 := by
  refine ⟨by decide, by decide, by decide⟩

/-- C3 amended: for each location and extreme label, the number of rows
emitted by one full pass equals the count of records pushed for that
location, and every emitted row carries the detector label; summing the
wave_length field over all rows instead overcounts by a factor of the
wave length. -/
theorem C3_coverage_amended (label : String) (wStart : Nat)
    (recs : List ExtremeDay) (ℓ : String) :
    countRows ℓ (runPass label wStart recs).2 = countRecs ℓ recs ∧
      ∀ row ∈ (runPass label wStart recs).2, row.extreme = label :=
  ⟨runPass_count label wStart recs ℓ, runPass_rows_extreme label wStart recs⟩

/-- Witness for C3 amended on a two-location input. -/
theorem C3_coverage_amended_witness :
    countRows "A" (runPass "cold" 0
        [⟨"A", ⟨2020, 1, 1⟩⟩, ⟨"B", ⟨2020, 1, 1⟩⟩]).2 =
      countRecs "A" [⟨"A", ⟨2020, 1, 1⟩⟩, ⟨"B", ⟨2020, 1, 1⟩⟩] :=
  (C3_coverage_amended "cold" 0 [⟨"A", ⟨2020, 1, 1⟩⟩, ⟨"B", ⟨2020, 1, 1⟩⟩] "A").1

/-- C4 counterexample: filtering one observation whose year is absent
from the cutoff table changes the table, because indexing the
defaultdict inserts an empty entry for the missing year. -/
theorem C4_counterexample :
    runFilter ltCmp [] [⟨"A", "20200101", "5"⟩] = .ok ([], [("2020", [])]) ∧
      ([("2020", [])] : CutTable) ≠ [] := by
  constructor
  · rfl
  · decide

/-- C4 amended: the filter is observationally pure on the cutoff table:
after a successful filtering run, every (year, location) threshold
lookup returns exactly what it returned before, although the table
object itself may have grown empty per-year entries for years that were
absent. -/
theorem C4_purity_amended (cmp : ℚ → ℚ → Bool) (t : CutTable) (input : List InRow)
    (kept : List InRow) (t' : CutTable)
    (h : runFilter cmp t input = .ok (kept, t')) :
    ∀ y ℓ, thrOf t' y ℓ = thrOf t y ℓ :=
  runFilter_thrOf cmp input t kept t' h

/-- Witness for C4 amended: the table grown by an absent year still
answers the lookup for that year and a location the same way. -/
theorem C4_purity_amended_witness :
    thrOf [("2020", [])] "2020" "A" = thrOf [] "2020" "A" :=
  C4_purity_amended ltCmp [] [⟨"A", "20200101", "5"⟩] [] [("2020", [])]
    (by rfl) "2020" "A"

/-- C9 counterexample: a row whose date string is not parseable as
YYYYMMDD but whose value is not extreme is silently dropped by the
filter before the date is ever parsed: the cold pass succeeds with no
rows and no error, while the claim demands a propagated fatal error. -/
theorem C9_counterexample :
    coldPass [] [⟨"A", "XXXXXXXX", "5"⟩] = .ok ([], 1, [("XXXX", [])]) ∧
      parseDateStr "XXXXXXXX" = none := by
  constructor
  · rfl
  · rfl

/-- C9 amended: a non-numeric value field always fails fast, since the
float conversion runs for every input row inside the filter; a malformed
date string fails fast exactly when its row reaches the detector, since
the date is parsed only inside push, so a malformed-date row that is not
classified extreme is silently dropped instead. -/
theorem C9_failfast_amended :
    (∀ (cmp : ℚ → ℚ → Bool) (t : CutTable) (input : List InRow) (r : InRow),
        r ∈ input → parseValue r.value = none →
          ∃ e, runFilter cmp t input = .error e) ∧
    (∀ (s : DState) (recs : List InRow) (r : InRow),
        r ∈ recs → parseDateStr r.date = none →
          ∃ e, runDetectorE s recs = .error e) :=
  ⟨fun cmp t input r hm hv => runFilter_fail cmp input t r hm hv,
   fun s recs r hm hv => runDetectorE_fail recs s r hm hv⟩

/-- Witness for C9 amended: a non-numeric value aborts the filter and a
malformed date aborts the detector stage. -/
theorem C9_failfast_amended_witness :
    (∃ e, runFilter ltCmp [] [⟨"A", "20200101", "abc"⟩] = .error e) ∧
      ∃ e, runDetectorE (initState "cold" 0) [⟨"A", "banana02", "5"⟩] = .error e :=
  ⟨C9_failfast_amended.1 ltCmp [] [⟨"A", "20200101", "abc"⟩]
      ⟨"A", "20200101", "abc"⟩ (List.mem_singleton.mpr rfl) (by rfl),
   C9_failfast_amended.2 (initState "cold" 0) [⟨"A", "banana02", "5"⟩]
      ⟨"A", "banana02", "5"⟩ (List.mem_singleton.mpr rfl) (by rfl)⟩
